import Mathlib

/-!
Shallow embedding of the generation orchestration engine in
`app/services/grok_client.py`: stage classification of inbound image
events, the WebSocket read loop of `_do_generate` (stall detection,
idle completion, protocol errors), the final-image selection of
`_save_final_images`, the retry loops `generate` and `generate_video`,
the video flow `_do_generate_video`, and the incremental adapter
`generate_stream`.

Python strings are modelled as `List Char`; Python float timestamps
(seconds) as `Nat`; string truthiness is nonemptiness.  Network,
filesystem and logging side effects are elided: base64 decoding and
file writes in `_save_final_images` are assumed to succeed, and the
configurable base URL of saved files is dropped (only the stable
`/images/<id>.<ext>` path of the servable URL is kept).
-/

namespace GrokClient

abbrev Str := List Char

/-- Characters admitted by the id group of `GrokImagineClient._url_pattern`,
the class `[a-f0-9-]`. -/
def isIdChar (c : Char) : Bool :=
  (decide ('a' ≤ c) && decide (c ≤ 'f')) || (decide ('0' ≤ c) && decide (c ≤ '9')) ||
    decide (c = '-')

/-- Literal match of `.png` or `.jpg` at the current position. -/
def extDotMatch : Str → Bool
  | '.' :: 'p' :: 'n' :: 'g' :: _ => true
  | '.' :: 'j' :: 'p' :: 'g' :: _ => true
  | _ => false

/-- Is `p` an initial segment of `s`? -/
def headMatches : Str → Str → Bool
  | [], _ => true
  | _ :: _, [] => false
  | p :: ps, c :: cs => decide (p = c) && headMatches ps cs

/-- Python `str.endswith`. -/
def endsWithList (suf s : Str) : Bool :=
  headMatches suf.reverse s.reverse

/-- Match the tail `([a-f0-9-]+)\.(png|jpg)` of the URL pattern at the start
of `cs`.  The dot is not an id character, so the greedy id run is exactly
the maximal run of id characters and needs no backtracking. -/
def idMatchAt (cs : Str) : Option Str :=
  let run := cs.takeWhile isIdChar
  if run = [] then none
  else if extDotMatch (cs.drop run.length) then some run else none

/-- `GrokImagineClient._extract_image_id`: leftmost `re.search` of
`/images/([a-f0-9-]+)\.(png|jpg)`, returning the captured id group. -/
def extractImageId : Str → Option Str
  | [] => none
  | c :: rest =>
    if headMatches "/images/".toList (c :: rest) then
      match idMatchAt ((c :: rest).drop 8) with
      | some i => some i
      | none => extractImageId rest
    else extractImageId rest

/-- `GrokImagineClient._is_final_image`: final iff the URL ends with `.jpg`
and the payload size exceeds 100000 bytes. -/
def isFinalImage (url : Str) (blobSize : Nat) : Bool :=
  endsWithList ".jpg".toList url && decide (100000 < blobSize)

/-- Quality stage of a tracked image (`ImageProgress.stage`). -/
inductive Stage
  | preview
  | medium
  | final
  deriving DecidableEq

/-- The stage computation at lines 822-834 of `_do_generate`: `final` via
`_is_final_image`, else `medium` when the payload size exceeds 30000,
else `preview`. -/
def classifyStage (url : Str) (blobSize : Nat) : Stage :=
  if isFinalImage url blobSize then .final
  else if 30000 < blobSize then .medium
  else .preview

/-- The `ImageProgress` dataclass: one tracked image. -/
structure ImageProgress where
  image_id : Str
  stage : Stage
  blob : Str
  blob_size : Nat
  url : Str
  is_final : Bool
  deriving DecidableEq

/-- Python dict write `progress.images[image_id] = v`: replace in place when
the key is present (dict keys are unique), else append at the end. -/
def updateImages : List (Str × ImageProgress) → Str → ImageProgress → List (Str × ImageProgress)
  | [], i, v => [(i, v)]
  | (k, w) :: rest, i, v =>
    if k = i then (i, v) :: rest else (k, w) :: updateImages rest i v

/-- Python dict read `progress.images.get(image_id)`. -/
def lookupImages : List (Str × ImageProgress) → Str → Option ImageProgress
  | [], _ => none
  | (k, w) :: rest, i => if k = i then some w else lookupImages rest i

/-- `GenerationProgress.completed` as recomputed at lines 852-855: the
number of stored units with `is_final = true`. -/
def completedOf (images : List (Str × ImageProgress)) : Nat :=
  (images.filter (fun p => p.2.is_final)).length

/-- `GenerationProgress.check_blocked`: some stored unit at stage `medium`
and no stored unit final. -/
def checkBlocked (images : List (Str × ImageProgress)) : Bool :=
  images.any (fun p => decide (p.2.stage = Stage.medium)) &&
    !images.any (fun p => p.2.is_final)

/-- The sort key `lambda x: (x.is_final, x.blob_size)` of
`_save_final_images` (False < True in Python). -/
def imgKey (im : ImageProgress) : Nat × Nat :=
  ((if im.is_final then 1 else 0), im.blob_size)

/-- The order realized by `sorted(..., key=..., reverse=True)`: `a` may come
no later than `b` iff the key of `a` is lexicographically at least the key
of `b`. -/
def keyGe (a b : ImageProgress) : Prop :=
  (imgKey b).1 < (imgKey a).1 ∨ ((imgKey a).1 = (imgKey b).1 ∧ (imgKey b).2 ≤ (imgKey a).2)

instance : DecidableRel keyGe := fun a b => by unfold keyGe; infer_instance

instance : IsTotal ImageProgress keyGe where
  total a b := by unfold keyGe; omega

instance : IsTrans ImageProgress keyGe where
  trans a b c hab hbc := by unfold keyGe at *; omega

/-- Python's stable descending sort at lines 1231-1235; a stable insertion
sort along the reversed key order realizes exactly `sorted` with
`reverse=True` (stable, descending in the key). -/
def sortImagesDesc (l : List ImageProgress) : List ImageProgress :=
  List.insertionSort keyGe l

/-- Servable path of a saved unit (lines 1244-1252): extension `jpg` for a
final unit, else `png`; the configurable base URL is elided. -/
def localUrl (im : ImageProgress) : Str :=
  "/images/".toList ++ im.image_id ++ ('.' :: (if im.is_final then "jpg".toList else "png".toList))

/-- One of the 64 data characters of the standard base64 alphabet. -/
def isB64Char (c : Char) : Bool :=
  (decide ('A' ≤ c) && decide (c ≤ 'Z')) || (decide ('a' ≤ c) && decide (c ≤ 'z')) ||
    (decide ('0' ≤ c) && decide (c ≤ '9')) || decide (c = '+') || decide (c = '/')

/-- Acceptance of CPython `binascii.a2b_base64` in non-strict mode, the
decoder behind `base64.b64decode(img.blob)` at line 1242: characters
outside the alphabet are skipped; a padding run that completes a quad of
at least two data characters ends decoding successfully (the rest is
ignored); padding before two data characters of the current quad is
skipped; the input is rejected when the data characters end mid-quad
(one leftover is the "1 more than a multiple of 4" error, two or three
the "Incorrect padding" error). -/
def b64ScanOk : Str → Nat → Nat → Bool
  | [], quadPos, _ => quadPos == 0
  | c :: rest, quadPos, pads =>
    if c = '=' then
      if 2 ≤ quadPos then
        if 4 ≤ quadPos + (pads + 1) then true
        else b64ScanOk rest quadPos (pads + 1)
      else b64ScanOk rest quadPos pads
    else if isB64Char c then b64ScanOk rest ((quadPos + 1) % 4) 0
    else b64ScanOk rest quadPos pads

/-- Does `base64.b64decode` succeed on this blob?  On a Python `str` it
first encodes as ASCII (a non-ASCII character raises `ValueError`), then
decodes in non-strict mode. -/
def b64DecodeOk (blob : Str) : Bool :=
  blob.all (fun c => decide (c.toNat ≤ 127)) && b64ScanOk blob 0 0

/-- The saving loop of `_save_final_images` (lines 1231-1263): iterate the
sorted units, skip ids already saved, stop once `n` ids are saved; the
per-unit `try/except` at lines 1241-1263 skips a unit whose blob fails
`base64.b64decode` — it is not saved and not added to `saved_ids`, so
later units fill its slot.  The file write itself is assumed to
succeed. -/
def saveLoop (n : Nat) : List ImageProgress → List Str → List Str × List Str
  | [], _ => ([], [])
  | im :: rest, savedIds =>
    if im.image_id ∈ savedIds then saveLoop n rest savedIds
    else if n ≤ savedIds.length then ([], [])
    else if b64DecodeOk im.blob then
      (localUrl im :: (saveLoop n rest (savedIds ++ [im.image_id])).1,
       im.blob :: (saveLoop n rest (savedIds ++ [im.image_id])).2)
    else saveLoop n rest savedIds

/-- `_save_final_images`: select and save units, returning
`(result_urls, result_b64)`. -/
def saveFinalImages (images : List (Str × ImageProgress)) (n : Nat) : List Str × List Str :=
  saveLoop n (sortImagesDesc (images.map Prod.snd)) []

/-- Result dictionaries of the image flow: the success shape, a failure
carrying an `error_code` key, and a failure carrying only `error`. -/
inductive GenResult
  | success (urls : List Str) (b64List : List Str) (count : Nat)
  | errFailure (errorCode : Str) (error : Str)
  | plainFailure (error : Str)
  deriving DecidableEq

/-- The blocked failure dictionary of lines 896-900, 915-919 and 942-946. -/
def blockedResult : GenResult :=
  .errFailure "blocked".toList "Generate diblokir, tidak dapat mendapatkan gambar final".toList

/-- The generic no-data failure of line 947. -/
def noDataResult : GenResult :=
  .plainFailure "Tidak menerima data gambar".toList

/-- One `stream_callback` invocation (lines 863-868): the updated unit and
the completed count at the moment of the call. -/
structure EmitItem where
  img : ImageProgress
  completedNow : Nat
  deriving DecidableEq

/-- Mutable loop state of `_do_generate` (lines 798-802): the unit store (a
Python dict in insertion order), `medium_received_time`, the recorded
`error_info` and `last_activity`.  `progress.completed` is recomputed from
the store after every store change (lines 852-855), therefore it always
equals `completedOf images` and is not stored separately.  `emits` records
the `stream_callback` invocations in order. -/
structure LoopState where
  images : List (Str × ImageProgress)
  medium_received_time : Option Nat
  error_info : Option (Str × Str)
  last_activity : Nat
  emits : List EmitItem
  deriving DecidableEq

/-- Loop state at lines 798-802: empty store, no medium time, no error,
`last_activity` equal to the loop start time. -/
def initialLoopState (t0 : Nat) : LoopState := ⟨[], none, none, t0, []⟩

/-- Inbound WebSocket events of the read loop, each carrying the time at
which `_do_generate` observes it: a TEXT message of type `image` or
`error` or of another type, a 5-second `receive` timeout, and channel
close or transport error. -/
inductive WsEvent
  | image (t : Nat) (blob : Str) (url : Str)
  | errorMsg (t : Nat) (code : Str) (msg : Str)
  | otherText (t : Nat)
  | timeout (t : Nat)
  | closed (t : Nat)
  deriving DecidableEq

/-- Outcome of one loop iteration: an early `return` (with the state at
that moment), a `break` to the exit path, or `continue`. -/
inductive StepOut
  | ret (r : GenResult) (s : LoopState)
  | brk (s : LoopState)
  | cont (s : LoopState)
  deriving DecidableEq

/-- The loop state carried by a step outcome. -/
def StepOut.state : StepOut → LoopState
  | .ret _ s => s
  | .brk s => s
  | .cont s => s

/-- The checks at lines 883-900, run after processing any TEXT message:
break once `n` final units accumulated; return `blocked` when a `medium`
arrived, no unit is final, and more than 15 seconds passed since
`medium_received_time`. -/
def afterTextChecks (n : Nat) (s : LoopState) (t : Nat) : StepOut :=
  if n ≤ completedOf s.images then .brk s
  else
    match s.medium_received_time with
    | some mt => if completedOf s.images = 0 ∧ 15 < t - mt then .ret blockedResult s else .cont s
    | none => .cont s

/-- Lines 829-832: record the time of the first `medium`-classified event
(set only when the stage is `medium` and no time was recorded yet). -/
def noteMediumTime (s : LoopState) (t : Nat) (stage : Stage) : LoopState :=
  if stage = Stage.medium ∧ s.medium_received_time = none then
    { s with medium_received_time := some t }
  else s

/-- Lines 846-868: store the unit unless the stored version for the same id
is already final; a store change recomputes `completed` and invokes the
callback (recorded in `emits`). -/
def storeImage (s : LoopState) (i : Str) (imgP : ImageProgress) : LoopState :=
  if (match lookupImages s.images i with
      | some ex => !ex.is_final
      | none => true) then
    { s with images := updateImages s.images i imgP,
             emits := s.emits ++ [⟨imgP, completedOf (updateImages s.images i imgP)⟩] }
  else s

/-- Processing of one `image` TEXT message with truthy `blob` and `url` and
an extracted id (lines 818-868): classify the stage, record the first
`medium` time, then store. -/
def applyImage (s : LoopState) (t : Nat) (i : Str) (blob url : Str) : LoopState :=
  let blobSize := blob.length
  let stage := classifyStage url blobSize
  storeImage (noteMediumTime s t stage) i
    ⟨i, stage, blob, blobSize, url, isFinalImage url blobSize⟩

/-- The early-returned result of a step, when there is one. -/
def StepOut.earlyResult : StepOut → Option GenResult
  | .ret r _ => some r
  | _ => none

/-- One iteration of the read loop of `_do_generate` (lines 804-925):
a TEXT message updates `last_activity` and is processed by type (an
`image` event whose URL lacks an id is dropped by `continue` at line 820,
skipping the checks; a `rate_limit_exceeded` error event returns at
once); a `receive` timeout runs the stall check with a 10-second window
and the idle-completion check; a closed or errored channel breaks. -/
def stepLoop (n : Nat) (s : LoopState) (e : WsEvent) : StepOut :=
  match e with
  | .image t blob url =>
    let s0 := { s with last_activity := t }
    if blob = [] ∨ url = [] then afterTextChecks n s0 t
    else
      match extractImageId url with
      | none => .cont s0
      | some i => afterTextChecks n (applyImage s0 t i blob url) t
  | .errorMsg t code msg =>
    let s0 := { s with last_activity := t, error_info := some (code, msg) }
    if code = "rate_limit_exceeded".toList then .ret (.errFailure code msg) s0
    else afterTextChecks n s0 t
  | .otherText t => afterTextChecks n { s with last_activity := t } t
  | .closed _ => .brk s
  | .timeout t =>
    let blockedHit :=
      match s.medium_received_time with
      | some mt => decide (completedOf s.images = 0) && decide (10 < t - mt)
      | none => false
    if blockedHit then .ret blockedResult s
    else if 0 < completedOf s.images ∧ 10 < t - s.last_activity then .brk s
    else .cont s

/-- Exit path of `_do_generate` (lines 927-947): save and select units; a
nonempty selection is a success; else surface the recorded error; else
classify via `check_blocked`, else the generic no-data failure. -/
def exitPath (n : Nat) (s : LoopState) : GenResult :=
  let saved := saveFinalImages s.images n
  if saved.1 ≠ [] then .success saved.1 saved.2 saved.1.length
  else
    match s.error_info with
    | some (c, m) => .errFailure c m
    | none => if checkBlocked s.images then blockedResult else noDataResult

/-- The read loop of `_do_generate` over a finite inbound trace; the end of
the trace models the loop ending (the overall deadline of line 804), after
which the exit path runs, as it does on `break`.  Returns the attempt
result and the loop state at termination. -/
def runLoopFull (n : Nat) (s : LoopState) : List WsEvent → GenResult × LoopState
  | [] => (exitPath n s, s)
  | e :: es =>
    match stepLoop n s e with
    | .ret r s' => (r, s')
    | .brk s' => (exitPath n s', s')
    | .cont s' => runLoopFull n s' es

/-- The result of one `_do_generate` attempt on an inbound trace. -/
def runLoopFrom (n : Nat) (s : LoopState) (evs : List WsEvent) : GenResult :=
  (runLoopFull n s evs).1

/-- The loop state after the given events when every one of them left the
loop running (`continue`); `none` once the loop returned or broke. -/
def statesAfter (n : Nat) (s : LoopState) : List WsEvent → Option LoopState
  | [] => some s
  | e :: es =>
    match stepLoop n s e with
    | .cont s' => statesAfter n s' es
    | _ => none

/-- One attempt result as `generate`/`generate_video` observe it:
`success`, the `error_code` value (empty when the key is absent), the
`error` message, and a tag distinguishing distinct result dictionaries,
so that verbatim returns can be stated. -/
structure AttemptResult where
  success : Bool
  errorCode : Str
  errMsg : Str
  tag : Nat
  deriving DecidableEq

/-- Behavior of one inner-driver call: a returned result dictionary or a
raised exception. -/
inductive AttemptOutcome
  | res (r : AttemptResult)
  | exn (msg : Str)
  deriving DecidableEq

/-- Results of one orchestrated call: an attempt result returned as-is, the
no-credential failure of line 690, the terminal blocked dictionary of
lines 730-734, an exception folded into `{success: False, error: str(e)}`,
and the fallback of line 758. -/
inductive OrchResult
  | fromAttempt (r : AttemptResult)
  | noSso
  | blockedCap
  | exnFailure (msg : Str)
  | allFailed
  deriving DecidableEq

/-- The `success` flag of an orchestrated result dictionary: only a
returned success result carries `success: True`; every constructed
failure dictionary carries `success: False`. -/
def OrchResult.successFlag : OrchResult → Bool
  | .fromAttempt r => r.success
  | _ => false

/-- The `error_code` value of an orchestrated result dictionary (empty
when the key is absent): the terminal blocked dictionary of lines 730-734
carries `error_code: "blocked"`. -/
def OrchResult.errorCodeOf : OrchResult → Str
  | .fromAttempt r => r.errorCode
  | .blockedCap => "blocked".toList
  | _ => []

/-- Observable trace of one orchestrated call: its result, the number of
attempts started, the credential used by each attempt, and the
`mark_failed` calls (credential, reason) in order. -/
structure RunTrace where
  result : OrchResult
  attemptsUsed : Nat
  credsUsed : List Str
  marks : List (Str × Str)
  deriving DecidableEq

/-- The `mark_failed` reason of line 727. -/
def blockedMarkReason : Str := "blocked - tidak dapat menghasilkan gambar final".toList

/-- The retry loop of `generate` (lines 686-758).  `pinned` is the caller
supplied `sso` (empty when absent, per Python truthiness); `pool i` is
what `sso_manager.get_next_sso()` yields on attempt `i` (empty when none);
`outcomes i` is the behavior of `_do_generate` on attempt `i`.  Credential
pool effects are recorded in `credsUsed` and `marks`; the best-effort age
verification side call (lines 693-700) cannot change the control flow and
is elided. -/
def generateGo (pinned : Str) (pool : Nat → Str) (outcomes : Nat → AttemptOutcome) :
    Nat → Nat → Nat → Option OrchResult → List Str → List (Str × Str) → RunTrace
  | 0, idx, _, lastError, creds, marks => ⟨lastError.getD .allFailed, idx, creds, marks⟩
  | fuel + 1, idx, blockedRetries, lastError, creds, marks =>
    let cur := if pinned = [] then pool idx else pinned
    if cur = [] then ⟨.noSso, idx, creds, marks⟩
    else
      let creds := creds ++ [cur]
      match outcomes idx with
      | .exn m =>
        if pinned = [] then
          generateGo pinned pool outcomes fuel (idx + 1) blockedRetries
            (some (.exnFailure m)) creds (marks ++ [(cur, m)])
        else ⟨.exnFailure m, idx + 1, creds, marks ++ [(cur, m)]⟩
      | .res r =>
        if r.success then ⟨.fromAttempt r, idx + 1, creds, marks⟩
        else if r.errorCode = "blocked".toList then
          let marks := marks ++ [(cur, blockedMarkReason)]
          if 3 ≤ blockedRetries + 1 then ⟨.blockedCap, idx + 1, creds, marks⟩
          else if pinned ≠ [] then ⟨.fromAttempt r, idx + 1, creds, marks⟩
          else generateGo pinned pool outcomes fuel (idx + 1) (blockedRetries + 1)
            lastError creds marks
        else if r.errorCode = "rate_limit_exceeded".toList ∨
            r.errorCode = "unauthorized".toList then
          let marks := marks ++ [(cur, r.errMsg)]
          if pinned ≠ [] then ⟨.fromAttempt r, idx + 1, creds, marks⟩
          else generateGo pinned pool outcomes fuel (idx + 1) blockedRetries
            (some (.fromAttempt r)) creds marks
        else ⟨.fromAttempt r, idx + 1, creds, marks⟩

/-- One orchestrated `generate` call with `max_retries` attempts. -/
def generateRun (pinned : Str) (pool : Nat → Str) (outcomes : Nat → AttemptOutcome)
    (maxRetries : Nat) : RunTrace :=
  generateGo pinned pool outcomes maxRetries 0 0 none [] []

/-- The retry loop of `generate_video` (lines 600-649): rotation only on
`rate_limit_exceeded` or `unauthorized`; every other structured failure is
returned as-is; an exception continues retrying unless a credential is
pinned.  `last_error` is set to every failed result (line 631). -/
def generateVideoGo (pinned : Str) (pool : Nat → Str) (outcomes : Nat → AttemptOutcome) :
    Nat → Nat → Option OrchResult → List Str → List (Str × Str) → RunTrace
  | 0, idx, lastError, creds, marks => ⟨lastError.getD .allFailed, idx, creds, marks⟩
  | fuel + 1, idx, lastError, creds, marks =>
    let cur := if pinned = [] then pool idx else pinned
    if cur = [] then ⟨.noSso, idx, creds, marks⟩
    else
      let creds := creds ++ [cur]
      match outcomes idx with
      | .exn m =>
        if pinned = [] then
          generateVideoGo pinned pool outcomes fuel (idx + 1)
            (some (.exnFailure m)) creds (marks ++ [(cur, m)])
        else ⟨.exnFailure m, idx + 1, creds, marks ++ [(cur, m)]⟩
      | .res r =>
        if r.success then ⟨.fromAttempt r, idx + 1, creds, marks⟩
        else if r.errorCode = "rate_limit_exceeded".toList ∨
            r.errorCode = "unauthorized".toList then
          let marks := marks ++ [(cur, r.errMsg)]
          if pinned ≠ [] then ⟨.fromAttempt r, idx + 1, creds, marks⟩
          else generateVideoGo pinned pool outcomes fuel (idx + 1)
            (some (.fromAttempt r)) creds marks
        else ⟨.fromAttempt r, idx + 1, creds, marks⟩

/-- One orchestrated `generate_video` call with `max_retries` attempts. -/
def generateVideoRun (pinned : Str) (pool : Nat → Str) (outcomes : Nat → AttemptOutcome)
    (maxRetries : Nat) : RunTrace :=
  generateVideoGo pinned pool outcomes maxRetries 0 none [] []

/-- The nested `streamingVideoGenerationResponse` object of one parsed
stream record. -/
structure VideoResp where
  progress : Nat
  videoUrl : Str
  thumbnailImageUrl : Str
  deriving DecidableEq

/-- One line of the chunked app-chat stream after framing: blank lines,
`[DONE]`, unparseable JSON and payloads without a dict `response` are
dropped (`malformed`); otherwise the record keeps its optional token and
its optional nonempty `streamingVideoGenerationResponse`. -/
inductive ChatLine
  | malformed
  | record (hasToken : Bool) (videoResp : Option VideoResp)
  deriving DecidableEq

/-- Lines 1073-1074: append a nonempty thumbnail not collected yet. -/
def updatePreviews (previews : List Str) (thumb : Str) : List Str :=
  if thumb ≠ [] ∧ thumb ∉ previews then previews ++ [thumb] else previews

/-- The stream consumption of `_do_generate_video` (lines 1040-1082):
collect distinct nonempty thumbnails in order; stop at the first record
whose `progress` reaches 100 with a nonempty `videoUrl`, yielding that
final video URL and its thumbnail. -/
def scanVideoLines : List ChatLine → List Str → Option (Str × Str) × List Str
  | [], previews => (none, previews)
  | .malformed :: rest, previews => scanVideoLines rest previews
  | .record _ none :: rest, previews => scanVideoLines rest previews
  | .record _ (some v) :: rest, previews =>
    if 100 ≤ v.progress ∧ v.videoUrl ≠ [] then
      (some (v.videoUrl, v.thumbnailImageUrl), updatePreviews previews v.thumbnailImageUrl)
    else scanVideoLines rest (updatePreviews previews v.thumbnailImageUrl)

/-- Outcomes of one `_do_generate_video` attempt over the aiohttp path. -/
inductive VideoOutcome
  | vidSuccess (url : Str) (thumb : Str)
  | postFailed
  | rateLimited
  | unauthorizedFailure
  | chatFailed (status : Nat)
  | notSupported (previews : List Str)
  deriving DecidableEq

/-- `_create_video_post` (lines 262-283): the post id is empty (missing)
unless the creation response status is 200 and the field is present. -/
def createVideoPost (status : Nat) (postIdField : Str) : Str :=
  if status ≠ 200 then [] else postIdField

/-- The aiohttp video flow of `_do_generate_video` (lines 987-1109):
post creation, chat-stream status classification (lines 1015-1032), and
stream consumption; the upscale call and the local save are elided (both
fall back to the raw URL on any failure and never change the outcome
classification). -/
def doGenerateVideoHttp (postStatus : Nat) (postIdField : Str) (chatStatus : Nat)
    (lines : List ChatLine) : VideoOutcome :=
  let postId := createVideoPost postStatus postIdField
  if postId = [] then .postFailed
  else if chatStatus ≠ 200 then
    if chatStatus = 429 then .rateLimited
    else if chatStatus = 401 then .unauthorizedFailure
    else .chatFailed chatStatus
  else
    match scanVideoLines lines [] with
    | (some (u, th), _) => .vidSuccess u th
    | (none, previews) => .notSupported (previews.take 3)

/-- Items put into the hand-off queue of `generate_stream`: one progress
record per callback invocation (lines 1288-1297) and one final result
record (line 1308). -/
inductive StreamItem
  | progressItem (p : EmitItem)
  | resultItem (r : GenResult)
  deriving DecidableEq

/-- Is this queue item the terminal result record? -/
def StreamItem.isResultItem : StreamItem → Bool
  | .resultItem _ => true
  | _ => false

/-- The consumer loop of `generate_stream` (lines 1313-1321): yield queue
items in order and stop right after yielding a `result` record. -/
def consumeStream : List StreamItem → List StreamItem
  | [] => []
  | .resultItem r :: _ => [.resultItem r]
  | .progressItem p :: rest => .progressItem p :: consumeStream rest

/-- The queue contents produced by `generate_task` for one driver run:
every callback invocation in order, then exactly one result record. -/
def adapterQueue (n : Nat) (s : LoopState) (evs : List WsEvent) : List StreamItem :=
  ((runLoopFull n s evs).2.emits.map StreamItem.progressItem) ++
    [StreamItem.resultItem (runLoopFull n s evs).1]

/-! ## Helper lemmas -/

theorem lookupImages_updateImages_self (st : List (Str × ImageProgress)) (i : Str)
    (v : ImageProgress) : lookupImages (updateImages st i v) i = some v := by
  induction st with
  | nil => simp [updateImages, lookupImages]
  | cons p rest ih =>
    obtain ⟨k, w⟩ := p
    by_cases h : k = i <;> simp [updateImages, lookupImages, h, ih]

theorem lookupImages_updateImages_ne (st : List (Str × ImageProgress)) (i j : Str)
    (v : ImageProgress) (h : j ≠ i) :
    lookupImages (updateImages st i v) j = lookupImages st j := by
  have h' : i ≠ j := Ne.symm h
  induction st with
  | nil => simp [updateImages, lookupImages, h']
  | cons p rest ih =>
    obtain ⟨k, w⟩ := p
    by_cases hk : k = i
    · subst hk
      simp [updateImages, lookupImages, h']
    · by_cases hj : k = j
      · subst hj
        simp [updateImages, lookupImages, hk]
      · simp [updateImages, lookupImages, hk, hj, ih]

theorem completedOf_cons (p : Str × ImageProgress) (rest : List (Str × ImageProgress)) :
    completedOf (p :: rest) = (if p.2.is_final then 1 else 0) + completedOf rest := by
  by_cases h : p.2.is_final <;>
    simp [completedOf, List.filter_cons, h, Nat.add_comm]

theorem completedOf_updateImages_nonfinal (st : List (Str × ImageProgress)) (i : Str)
    (v : ImageProgress) (hv : v.is_final = false) :
    completedOf st = 0 → completedOf (updateImages st i v) = 0 := by
  induction st with
  | nil => intro _; simp [updateImages, completedOf, List.filter, hv]
  | cons p rest ih =>
    intro h0
    obtain ⟨k, w⟩ := p
    rw [completedOf_cons] at h0
    have hr : completedOf rest = 0 := by omega
    by_cases hk : k = i
    · simp only [updateImages, if_pos hk]
      rw [completedOf_cons]
      simp [hv, hr]
    · simp only [updateImages, if_neg hk]
      rw [completedOf_cons]
      have := ih hr
      omega

theorem noteMediumTime_images (s : LoopState) (t : Nat) (st : Stage) :
    (noteMediumTime s t st).images = s.images := by
  unfold noteMediumTime
  split <;> rfl

theorem noteMediumTime_emits (s : LoopState) (t : Nat) (st : Stage) :
    (noteMediumTime s t st).emits = s.emits := by
  unfold noteMediumTime
  split <;> rfl

theorem noteMediumTime_mrt_some (s : LoopState) (t : Nat) (st : Stage) (mt : Nat)
    (h : s.medium_received_time = some mt) :
    (noteMediumTime s t st).medium_received_time = some mt := by
  unfold noteMediumTime
  split
  · rename_i hc
    simp [hc.2] at h
  · exact h

theorem noteMediumTime_mrt_medium (s : LoopState) (t : Nat)
    (h : s.medium_received_time = none) :
    (noteMediumTime s t Stage.medium).medium_received_time = some t := by
  unfold noteMediumTime
  rw [if_pos ⟨rfl, h⟩]

theorem storeImage_mrt (s : LoopState) (i : Str) (v : ImageProgress) :
    (storeImage s i v).medium_received_time = s.medium_received_time := by
  unfold storeImage
  split <;> rfl

theorem storeImage_lookup_final (s : LoopState) (j : Str) (v : ImageProgress) (i : Str)
    (u : ImageProgress) (hl : lookupImages s.images i = some u) (hf : u.is_final = true) :
    lookupImages (storeImage s j v).images i = some u := by
  unfold storeImage
  by_cases hj : j = i
  · subst hj
    rw [hl]
    simp [hf, hl]
  · cases hlj : lookupImages s.images j with
    | none => simp [hlj, lookupImages_updateImages_ne _ _ _ _ (Ne.symm hj), hl]
    | some ex =>
      by_cases hex : ex.is_final <;>
        simp [hlj, hex, lookupImages_updateImages_ne _ _ _ _ (Ne.symm hj), hl]

theorem storeImage_lookup_replace (s : LoopState) (i : Str) (v : ImageProgress)
    (u : ImageProgress) (hl : lookupImages s.images i = some u) (hnf : u.is_final = false) :
    lookupImages (storeImage s i v).images i = some v := by
  unfold storeImage
  rw [hl]
  simp [hnf, lookupImages_updateImages_self]

theorem storeImage_completedOf_zero (s : LoopState) (i : Str) (v : ImageProgress)
    (hv : v.is_final = false) (h0 : completedOf s.images = 0) :
    completedOf (storeImage s i v).images = 0 := by
  unfold storeImage
  cases hl : lookupImages s.images i with
  | none => simpa using completedOf_updateImages_nonfinal s.images i v hv h0
  | some ex =>
    by_cases hex : ex.is_final <;>
      simp [hex, h0, completedOf_updateImages_nonfinal s.images i v hv h0]

theorem applyImage_lookup_final (s : LoopState) (t : Nat) (j blob url i : Str)
    (u : ImageProgress) (hl : lookupImages s.images i = some u) (hf : u.is_final = true) :
    lookupImages (applyImage s t j blob url).images i = some u := by
  unfold applyImage
  exact storeImage_lookup_final _ _ _ _ _ (by rw [noteMediumTime_images]; exact hl) hf

theorem applyImage_mrt_some (s : LoopState) (t : Nat) (i blob url : Str) (mt : Nat)
    (h : s.medium_received_time = some mt) :
    (applyImage s t i blob url).medium_received_time = some mt := by
  unfold applyImage
  rw [storeImage_mrt, noteMediumTime_mrt_some _ _ _ _ h]

theorem applyImage_completedOf_zero (s : LoopState) (t : Nat) (i blob url : Str)
    (hnf : isFinalImage url blob.length = false) (h0 : completedOf s.images = 0) :
    completedOf (applyImage s t i blob url).images = 0 := by
  unfold applyImage
  exact storeImage_completedOf_zero _ _ _ hnf (by rw [noteMediumTime_images]; exact h0)

theorem afterTextChecks_state (n : Nat) (s : LoopState) (t : Nat) :
    (afterTextChecks n s t).state = s := by
  unfold afterTextChecks
  split
  · rfl
  · split
    · split <;> rfl
    · rfl

theorem stepLoop_lookup_final (n : Nat) (s : LoopState) (e : WsEvent) (i : Str)
    (u : ImageProgress) (hl : lookupImages s.images i = some u) (hf : u.is_final = true) :
    lookupImages ((stepLoop n s e).state).images i = some u := by
  cases e with
  | image t blob url =>
    simp only [stepLoop]
    by_cases hbu : blob = [] ∨ url = []
    · rw [if_pos hbu, afterTextChecks_state]
      exact hl
    · rw [if_neg hbu]
      cases he : extractImageId url with
      | none => simpa [StepOut.state] using hl
      | some j =>
        rw [afterTextChecks_state]
        exact applyImage_lookup_final _ _ _ _ _ _ _ hl hf
  | errorMsg t code msg =>
    simp only [stepLoop]
    split
    · simpa [StepOut.state] using hl
    · rw [afterTextChecks_state]
      exact hl
  | otherText t =>
    simp only [stepLoop]
    rw [afterTextChecks_state]
    exact hl
  | closed t => simpa [stepLoop, StepOut.state] using hl
  | timeout t =>
    simp only [stepLoop]
    split
    · simpa [StepOut.state] using hl
    · split <;> simpa [StepOut.state] using hl

/-! ## C3 -/

/-- C3: during one image-generation attempt, stage is monotonic per unit id:
once the stored unit for an id has `is_final = true`, no later inbound event
processed by the read loop replaces it or reverts its stage — the stored
record for that id is unchanged in every later loop state. -/
theorem c3_stage_monotonic (n : Nat) (s : LoopState) (evs : List WsEvent)
    (s' : LoopState) (i : Str) (u : ImageProgress)
    (hrun : statesAfter n s evs = some s')
    (hl : lookupImages s.images i = some u) (hf : u.is_final = true) :
    lookupImages s'.images i = some u := by
  induction evs generalizing s with
  | nil =>
    simp only [statesAfter, Option.some.injEq] at hrun
    subst hrun
    exact hl
  | cons e es ih =>
    rw [statesAfter] at hrun
    cases hst : stepLoop n s e with
    | cont s1 =>
      rw [hst] at hrun
      have hpres := stepLoop_lookup_final n s e i u hl hf
      rw [hst] at hpres
      exact ih s1 hrun hpres
    | ret r s1 =>
      rw [hst] at hrun
      cases hrun
    | brk s1 =>
      rw [hst] at hrun
      cases hrun

/-- Sample data for the C3 witness: a final unit and a later lower-stage
event for the same id. -/
def wFinalImg : ImageProgress :=
  ⟨"ab".toList, Stage.final, "x".toList, 150001, "/images/ab.jpg".toList, true⟩

def wState3 : LoopState := ⟨[("ab".toList, wFinalImg)], none, none, 0, []⟩

def wState3After : LoopState := ⟨[("ab".toList, wFinalImg)], none, none, 5, []⟩

theorem c3_stage_monotonic_witness :
    lookupImages wState3After.images "ab".toList = some wFinalImg :=
  c3_stage_monotonic 4 wState3 [WsEvent.image 5 "zz".toList "/images/ab.png".toList]
    wState3After "ab".toList wFinalImg (by decide) (by decide) (by decide)

/-! ## C10 -/

/-- C10: a stored unit that is not yet final is always replaced by a later
well-formed image event for the same id — the store afterwards holds the
new event's stage, payload and size, even when the new stage is lower;
only already-final units are protected (see C3). -/
theorem c10_nonfinal_replaced (n : Nat) (s : LoopState) (t : Nat) (blob url i : Str)
    (u : ImageProgress) (hl : lookupImages s.images i = some u) (hnf : u.is_final = false)
    (hb : blob ≠ []) (hu : url ≠ []) (he : extractImageId url = some i) :
    lookupImages ((stepLoop n s (.image t blob url)).state).images i =
      some ⟨i, classifyStage url blob.length, blob, blob.length, url,
        isFinalImage url blob.length⟩ := by
  simp only [stepLoop]
  rw [if_neg (not_or.mpr ⟨hb, hu⟩)]
  simp only [he]
  rw [afterTextChecks_state]
  unfold applyImage
  exact storeImage_lookup_replace _ _ _ u (by rw [noteMediumTime_images]; exact hl) hnf

/-- Sample data for the C10 witness: a medium unit replaced by a later
preview-stage event for the same id. -/
def wMedImg : ImageProgress :=
  ⟨"ab".toList, Stage.medium, "yy".toList, 40000, "/images/ab.png".toList, false⟩

def wState10 : LoopState := ⟨[("ab".toList, wMedImg)], some 1, none, 1, []⟩

theorem c10_nonfinal_replaced_witness :
    lookupImages ((stepLoop 4 wState10 (.image 7 "zz".toList "/images/ab.png".toList)).state).images
        "ab".toList =
      some ⟨"ab".toList, classifyStage "/images/ab.png".toList ("zz".toList).length,
        "zz".toList, ("zz".toList).length, "/images/ab.png".toList,
        isFinalImage "/images/ab.png".toList ("zz".toList).length⟩ :=
  c10_nonfinal_replaced 4 wState10 7 "zz".toList "/images/ab.png".toList "ab".toList
    wMedImg (by decide) (by decide) (by decide) (by decide) (by decide)

/-! ## C4 -/

/-- C4: for every inbound image event with URL `u` and payload size `s`,
the stage classification is `final` iff `u` ends in `.jpg` and
`s > 100000`; else `medium` iff `s > 30000`; else `preview`.  In
particular a `.jpg` URL with size 150000 classifies `final`, a `.jpg` URL
with size 50000 classifies `medium`, and size 10000 classifies `preview`
regardless of extension. -/
theorem c4_stage_classification :
    (∀ (url : Str) (blobSize : Nat), classifyStage url blobSize = Stage.final ↔
      (endsWithList ".jpg".toList url = true ∧ 100000 < blobSize))
  ∧ (∀ (url : Str) (blobSize : Nat), classifyStage url blobSize = Stage.medium ↔
      (¬(endsWithList ".jpg".toList url = true ∧ 100000 < blobSize) ∧ 30000 < blobSize))
  ∧ (∀ (url : Str) (blobSize : Nat), classifyStage url blobSize = Stage.preview ↔
      (¬(endsWithList ".jpg".toList url = true ∧ 100000 < blobSize) ∧ blobSize ≤ 30000))
  ∧ classifyStage "/images/ab.jpg".toList 150000 = Stage.final
  ∧ classifyStage "/images/ab.jpg".toList 50000 = Stage.medium
  ∧ (∀ url : Str, classifyStage url 10000 = Stage.preview) := by
  have hfin : ∀ (url : Str) (bs : Nat), isFinalImage url bs = true ↔
      (endsWithList ".jpg".toList url = true ∧ 100000 < bs) := by
    intro url bs
    simp [isFinalImage]
  refine ⟨?_, ?_, ?_, by decide, by decide, ?_⟩
  · intro url bs
    rw [← hfin]
    unfold classifyStage
    split_ifs with h1 h2 <;> simp [h1]
  · intro url bs
    rw [← hfin]
    unfold classifyStage
    split_ifs with h1 h2 <;> simp_all
  · intro url bs
    rw [← hfin]
    unfold classifyStage
    split_ifs with h1 h2 <;> simp_all [Nat.not_lt]
  · intro url
    simp [classifyStage, isFinalImage]

/-! ## C2 -/

/-- C2: stall detection.  (a) When a `medium` was first seen at `mt`, no
unit is final (also after processing the newly arrived, non-final image
event), and the event arrives more than 15 seconds past `mt`, the loop
returns the blocked failure immediately.  (b) On the read-timeout path the
window is 10 seconds.  (c) Hence under pure idle receive (5-second read
timeouts), a medium-classified event at `T = 100` with no final unit
yields the blocked failure by `T + 15 ≤ T + 16`. -/
theorem c2_stall_detection :
    (∀ (n : Nat) (s : LoopState) (t : Nat) (blob url i : Str) (mt : Nat),
      s.medium_received_time = some mt → completedOf s.images = 0 →
      blob ≠ [] → url ≠ [] → extractImageId url = some i →
      isFinalImage url blob.length = false → 0 < n → mt + 15 < t →
      (stepLoop n s (.image t blob url)).earlyResult = some blockedResult)
  ∧ (∀ (n : Nat) (s : LoopState) (t mt : Nat),
      s.medium_received_time = some mt → completedOf s.images = 0 → mt + 10 < t →
      (stepLoop n s (.timeout t)).earlyResult = some blockedResult)
  ∧ (∀ blob : Str, 30000 < blob.length →
      isFinalImage "/images/ab.png".toList blob.length = false →
      runLoopFrom 4 (initialLoopState 100)
        [.image 100 blob "/images/ab.png".toList, .timeout 105, .timeout 110, .timeout 115]
        = blockedResult) := by
  refine ⟨?_, ?_, ?_⟩
  · intro n s t blob url i mt hmt h0 hb hu he hnf hn ht
    simp only [stepLoop]
    rw [if_neg (not_or.mpr ⟨hb, hu⟩)]
    simp only [he]
    have hmrt : (applyImage { s with last_activity := t } t i blob url).medium_received_time
        = some mt := applyImage_mrt_some _ _ _ _ _ _ hmt
    have hc0 : completedOf (applyImage { s with last_activity := t } t i blob url).images = 0 :=
      applyImage_completedOf_zero _ _ _ _ _ hnf h0
    unfold afterTextChecks
    simp only [hc0, hmrt]
    have h15 : 15 < t - mt := by omega
    have hn0 : ¬ n ≤ 0 := by omega
    simp [hn0, h15, StepOut.earlyResult]
  · intro n s t mt hmt h0 ht
    simp only [stepLoop, hmt]
    have hcond : (decide (completedOf s.images = 0) && decide (10 < t - mt)) = true := by
      rw [h0]
      simp
      omega
    rw [if_pos hcond]
    rfl
  · intro blob hlen hnf
    have hb : blob ≠ [] := by
      intro h
      rw [h] at hlen
      simp at hlen
    have hid : extractImageId "/images/ab.png".toList = some "ab".toList := by decide
    have hS0 : ({ initialLoopState 100 with last_activity := 100 } : LoopState)
        = initialLoopState 100 := rfl
    have hstage : classifyStage "/images/ab.png".toList blob.length = Stage.medium := by
      unfold classifyStage
      rw [hnf]
      simp [hlen]
    have hmrt1 : (applyImage (initialLoopState 100) 100 "ab".toList blob
        "/images/ab.png".toList).medium_received_time = some 100 := by
      unfold applyImage
      rw [storeImage_mrt, hstage]
      exact noteMediumTime_mrt_medium _ _ rfl
    have hc1 : completedOf (applyImage (initialLoopState 100) 100 "ab".toList blob
        "/images/ab.png".toList).images = 0 :=
      applyImage_completedOf_zero _ _ _ _ _ hnf rfl
    have hstep1 : stepLoop 4 (initialLoopState 100)
        (.image 100 blob "/images/ab.png".toList)
        = .cont (applyImage (initialLoopState 100) 100 "ab".toList blob
            "/images/ab.png".toList) := by
      simp only [stepLoop]
      rw [if_neg (not_or.mpr ⟨hb, by decide⟩)]
      simp only [hid, hS0]
      unfold afterTextChecks
      simp only [hc1, hmrt1]
      norm_num
    have hstep2 : stepLoop 4 (applyImage (initialLoopState 100) 100 "ab".toList blob
        "/images/ab.png".toList) (.timeout 105)
        = .cont (applyImage (initialLoopState 100) 100 "ab".toList blob
            "/images/ab.png".toList) := by
      simp only [stepLoop, hmrt1, hc1]
      norm_num
    have hstep3 : stepLoop 4 (applyImage (initialLoopState 100) 100 "ab".toList blob
        "/images/ab.png".toList) (.timeout 110)
        = .cont (applyImage (initialLoopState 100) 100 "ab".toList blob
            "/images/ab.png".toList) := by
      simp only [stepLoop, hmrt1, hc1]
      norm_num
    have hstep4 : stepLoop 4 (applyImage (initialLoopState 100) 100 "ab".toList blob
        "/images/ab.png".toList) (.timeout 115)
        = .ret blockedResult (applyImage (initialLoopState 100) 100 "ab".toList blob
            "/images/ab.png".toList) := by
      simp only [stepLoop, hmrt1, hc1]
      norm_num
    unfold runLoopFrom
    simp only [runLoopFull, hstep1, hstep2, hstep3, hstep4]

/-- Sample stalled state for the C2 witness: one stored medium unit, the
medium time recorded at 100, no final unit. -/
def wMedState : LoopState := ⟨[("ab".toList, wMedImg)], some 100, none, 100, []⟩

theorem c2_stall_detection_witness :
    (stepLoop 4 wMedState (.image 116 "qq".toList "/images/ab.png".toList)).earlyResult
        = some blockedResult
  ∧ (stepLoop 4 wMedState (.timeout 111)).earlyResult = some blockedResult
  ∧ runLoopFrom 4 (initialLoopState 100)
      [.image 100 (List.replicate 30001 'a') "/images/ab.png".toList,
       .timeout 105, .timeout 110, .timeout 115] = blockedResult := by
  refine ⟨c2_stall_detection.1 4 wMedState 116 "qq".toList "/images/ab.png".toList
      "ab".toList 100 (by decide) (by decide) (by decide) (by decide) (by decide)
      (by decide) (by decide) (by decide),
    c2_stall_detection.2.1 4 wMedState 111 100 (by decide) (by decide) (by decide),
    c2_stall_detection.2.2 (List.replicate 30001 'a') ?_ ?_⟩
  · rw [List.length_replicate]
    omega
  · rw [List.length_replicate]
    decide

/-! ## C1 -/

theorem sortImagesDesc_length (l : List ImageProgress) :
    (sortImagesDesc l).length = l.length :=
  (List.perm_insertionSort keyGe l).length_eq

theorem saveLoop_all_undecodable (n : Nat) :
    ∀ (l : List ImageProgress) (saved : List Str),
      (∀ im ∈ l, b64DecodeOk im.blob = false) → saveLoop n l saved = ([], [])
  | [], saved, _ => by simp [saveLoop]
  | im :: rest, saved, h => by
    rw [saveLoop]
    have hrec := saveLoop_all_undecodable n rest saved
      (fun x hx => h x (List.mem_cons_of_mem _ hx))
    by_cases hmem : im.image_id ∈ saved
    · rw [if_pos hmem]
      exact hrec
    · rw [if_neg hmem]
      by_cases hle : n ≤ saved.length
      · rw [if_pos hle]
      · rw [if_neg hle, if_neg (by simp [h im (List.mem_cons_self _ _)])]
        exact hrec

theorem saveFinalImages_all_undecodable (images : List (Str × ImageProgress)) (n : Nat)
    (h : ∀ im ∈ images.map Prod.snd, b64DecodeOk im.blob = false) :
    saveFinalImages images n = ([], []) := by
  unfold saveFinalImages
  exact saveLoop_all_undecodable n _ []
    (fun im him => h im ((List.perm_insertionSort keyGe _).mem_iff.mp him))

theorem saveLoop_exists_decodable (n : Nat) (hn : 0 < n) :
    ∀ l : List ImageProgress, (∃ im ∈ l, b64DecodeOk im.blob = true) →
      (saveLoop n l []).1 ≠ []
  | [] => by
    rintro ⟨im, him, _⟩
    cases him
  | im :: rest => by
    rintro ⟨x, hx, hdec⟩
    rw [saveLoop, if_neg (List.not_mem_nil _),
      if_neg (show ¬ n ≤ ([] : List Str).length by simp; omega)]
    by_cases hd : b64DecodeOk im.blob = true
    · rw [if_pos hd]
      simp
    · rw [if_neg hd]
      refine saveLoop_exists_decodable n hn rest ?_
      rcases List.mem_cons.mp hx with rfl | hx'
      · exact absurd hdec hd
      · exact ⟨x, hx', hdec⟩

theorem completedOf_eq_zero_iff (images : List (Str × ImageProgress)) :
    completedOf images = 0 ↔ images.any (fun p => p.2.is_final) = false := by
  induction images with
  | nil => simp [completedOf]
  | cons p rest ih =>
    rw [completedOf_cons, List.any_cons]
    cases h : p.2.is_final with
    | true =>
      constructor
      · intro hh
        rw [if_pos rfl] at hh
        omega
      · intro hh
        rw [Bool.true_or] at hh
        exact absurd hh (by decide)
    | false =>
      rw [if_neg (by decide), Bool.false_or, Nat.zero_add]
      exact ih

/-- Trace for the C1 counterexample: one preview-stage unit whose payload
`"abcd"` is accepted by `base64.b64decode`, a recorded non-rate-limit
protocol error, then channel close. -/
def c1Trace : List WsEvent :=
  [.image 10 "abcd".toList "/images/aa.png".toList,
   .errorMsg 11 "e1".toList "boom".toList,
   .closed 12]

/-- C1 counterexample: an attempt whose read loop exits (channel close)
with zero units final but one preview unit stored whose payload decodes,
and with a protocol error recorded during the loop, returns success
carrying the non-final unit's URL — not the recorded error — because
`_save_final_images` saves the best available units regardless of
finality.  This falsifies the claim that such an attempt surfaces the
recorded error and never returns success when no stored unit is final. -/
theorem c1_counterexample :
    b64DecodeOk "abcd".toList = true
  ∧ runLoopFrom 4 (initialLoopState 10) c1Trace
      = GenResult.success ["/images/aa.png".toList] ["abcd".toList] 1
  ∧ completedOf (runLoopFull 4 (initialLoopState 10) c1Trace).2.images = 0
  ∧ (runLoopFull 4 (initialLoopState 10) c1Trace).2.error_info
      = some ("e1".toList, "boom".toList)
  ∧ runLoopFrom 4 (initialLoopState 10) c1Trace
      ≠ GenResult.errFailure "e1".toList "boom".toList :=
  ⟨by decide, by decide, by decide, by decide, by decide⟩

/-- C1 (amended): for every attempt that exits its read loop with zero
units final, when the save step stores nothing — no stored unit has a
payload accepted by `base64.b64decode`, in particular when nothing is
stored at all — the attempt returns the recorded protocol error if one
was recorded; otherwise it returns `blocked` exactly when some stored
unit is at stage `medium` (`check_blocked`, whose no-final conjunct holds
since zero units are final), else the generic no-data failure.  When some
stored unit — final or not — has a decodable payload, the exit path
instead returns success with the saved URLs, so in that case a recorded
error is not surfaced. -/
theorem c1_exit_classification_amended (n : Nat) (s : LoopState) (hn : 0 < n) :
    ((∀ im ∈ s.images.map Prod.snd, b64DecodeOk im.blob = false) →
      exitPath n s =
        (match s.error_info with
         | some (c, m) => GenResult.errFailure c m
         | none => if checkBlocked s.images then blockedResult else noDataResult))
  ∧ (completedOf s.images = 0 →
      (checkBlocked s.images = true ↔
        s.images.any (fun p => decide (p.2.stage = Stage.medium)) = true))
  ∧ ((∃ im ∈ s.images.map Prod.snd, b64DecodeOk im.blob = true) →
      ∃ us bs, exitPath n s = .success us bs us.length ∧ us ≠ []) := by
  refine ⟨?_, ?_, ?_⟩
  · intro hall
    have hsv : saveFinalImages s.images n = ([], []) :=
      saveFinalImages_all_undecodable s.images n hall
    unfold exitPath
    rw [hsv]
    cases he : s.error_info with
    | some cm =>
      obtain ⟨c, m⟩ := cm
      simp
    | none => simp
  · intro h0
    have hnf : s.images.any (fun p => p.2.is_final) = false :=
      (completedOf_eq_zero_iff s.images).mp h0
    unfold checkBlocked
    rw [hnf, Bool.not_false, Bool.and_true]
  · rintro ⟨im, him, hdec⟩
    have him' : im ∈ sortImagesDesc (s.images.map Prod.snd) :=
      (List.perm_insertionSort keyGe _).mem_iff.mpr him
    have hne : (saveFinalImages s.images n).1 ≠ [] := by
      unfold saveFinalImages
      exact saveLoop_exists_decodable n hn _ ⟨im, him', hdec⟩
    refine ⟨(saveFinalImages s.images n).1, (saveFinalImages s.images n).2, ?_, hne⟩
    simp only [exitPath]
    rw [if_pos hne]

/-- States for the C1 amended-claim witness: nothing stored with an error
recorded, and a stored undecodable medium unit with no error recorded
(the restored blocked classification). -/
def wEmptyErrState : LoopState := ⟨[], none, some ("e1".toList, "boom".toList), 0, []⟩

def wUndecImg : ImageProgress :=
  ⟨"ab".toList, Stage.medium, "abcde".toList, 40000, "/images/ab.png".toList, false⟩

def wUndecState : LoopState := ⟨[("ab".toList, wUndecImg)], some 100, none, 100, []⟩

theorem c1_exit_classification_amended_witness :
    exitPath 4 wEmptyErrState = GenResult.errFailure "e1".toList "boom".toList
  ∧ exitPath 4 wUndecState = blockedResult := by
  constructor
  · have h := (c1_exit_classification_amended 4 wEmptyErrState (by decide)).1 (by decide)
    rw [h]
    rfl
  · have h := (c1_exit_classification_amended 4 wUndecState (by decide)).1 (by decide)
    rw [h]
    decide

/-! ## C5 -/

theorem saveLoop_nodup (n : Nat) :
    ∀ (l : List ImageProgress) (saved : List Str),
      (∀ im ∈ l, im.image_id ∉ saved) →
      (∀ im ∈ l, b64DecodeOk im.blob = true) →
      l.Pairwise (fun a b => a.image_id ≠ b.image_id) →
      saveLoop n l saved = ((l.take (n - saved.length)).map localUrl,
        (l.take (n - saved.length)).map ImageProgress.blob)
  | [], saved, _, _, _ => by simp [saveLoop]
  | im :: rest, saved, hd, hdec, hp => by
    rw [saveLoop, if_neg (hd im (by simp))]
    by_cases hle : n ≤ saved.length
    · rw [if_pos hle]
      have h0 : n - saved.length = 0 := by omega
      rw [h0]
      simp
    · rw [if_neg hle, if_pos (hdec im (by simp))]
      have hd' : ∀ x ∈ rest, x.image_id ∉ saved ++ [im.image_id] := by
        intro x hx
        rw [List.mem_append]
        push_neg
        refine ⟨hd x (List.mem_cons_of_mem _ hx), ?_⟩
        simp only [List.mem_singleton]
        intro hcontra
        exact (List.pairwise_cons.mp hp).1 x hx hcontra.symm
      have hrec := saveLoop_nodup n rest (saved ++ [im.image_id]) hd'
        (fun x hx => hdec x (List.mem_cons_of_mem _ hx)) (List.pairwise_cons.mp hp).2
      rw [hrec]
      have hlen : (saved ++ [im.image_id]).length = saved.length + 1 := by simp
      rw [hlen]
      have harith : n - saved.length = (n - (saved.length + 1)) + 1 := by omega
      rw [harith]
      simp

/-- Data for the C5 counterexample: six distinct final units; the
top-ranked unit `f` (largest size) carries the payload `"abcde"`, which
`base64.b64decode` rejects (5 data characters), so the source's
`try/except` skips it and the next four by rank are saved instead. -/
def wDecImg (c : Char) (sz : Nat) : ImageProgress :=
  ⟨[c], Stage.final, "aaaa".toList, sz, "/images/x.jpg".toList, true⟩

def wSkipStore : List (Str × ImageProgress) :=
  [(['a'], wDecImg 'a' 100001), (['b'], wDecImg 'b' 100002), (['c'], wDecImg 'c' 100003),
   (['d'], wDecImg 'd' 100004), (['e'], wDecImg 'e' 100005),
   (['f'], ⟨['f'], Stage.final, "abcde".toList, 100006, "/images/x.jpg".toList, true⟩)]

/-- C5 counterexample: a run whose stream yielded 6 distinct final units
where the largest unit's payload fails `base64.b64decode`: the result
still has 4 URLs, but they are not the first 4 of the
final-then-larger-size order — the undecodable top unit is skipped and
the fifth-ranked unit fills its slot.  This falsifies the claim that the
kept units are always chosen by that ordering. -/
theorem c5_counterexample :
    (wSkipStore.map Prod.snd).Pairwise (fun a b => a.image_id ≠ b.image_id)
  ∧ (∀ im ∈ wSkipStore.map Prod.snd, im.is_final = true)
  ∧ (saveFinalImages wSkipStore 4).1 =
      [localUrl (wDecImg 'e' 100005), localUrl (wDecImg 'd' 100004),
       localUrl (wDecImg 'c' 100003), localUrl (wDecImg 'b' 100002)]
  ∧ (saveFinalImages wSkipStore 4).1
      ≠ ((sortImagesDesc (wSkipStore.map Prod.snd)).take 4).map localUrl :=
  ⟨by decide, by decide, by decide, by decide⟩

/-- C5 (amended): the units kept by `_save_final_images` are selected by
the stable descending order on the key `(is_final, blob_size)` — final
first, ties broken by larger size — with at most `target_count` distinct
ids kept, among the units whose payloads `base64.b64decode` accepts (a
unit whose payload fails to decode is skipped and later units fill its
slot): when every stored payload decodes and ids are pairwise distinct,
the saved URLs are exactly the first `n` units of that order, their
number is `min n` (stored count), and the order is a permutation of the
stored units sorted by `keyGe`. -/
theorem c5_final_selection (images : List (Str × ImageProgress)) (n : Nat)
    (hp : (images.map Prod.snd).Pairwise (fun a b => a.image_id ≠ b.image_id))
    (hdec : ∀ im ∈ images.map Prod.snd, b64DecodeOk im.blob = true) :
    (saveFinalImages images n).1
        = ((sortImagesDesc (images.map Prod.snd)).take n).map localUrl
  ∧ (saveFinalImages images n).1.length = min n images.length
  ∧ (sortImagesDesc (images.map Prod.snd)).Perm (images.map Prod.snd)
  ∧ (sortImagesDesc (images.map Prod.snd)).Sorted keyGe := by
  have hperm : (sortImagesDesc (images.map Prod.snd)).Perm (images.map Prod.snd) :=
    List.perm_insertionSort keyGe _
  have hp' : (sortImagesDesc (images.map Prod.snd)).Pairwise
      (fun a b => a.image_id ≠ b.image_id) :=
    (List.Perm.pairwise_iff (fun h => Ne.symm h) hperm).mpr hp
  have hdec' : ∀ im ∈ sortImagesDesc (images.map Prod.snd), b64DecodeOk im.blob = true :=
    fun im him => hdec im (hperm.mem_iff.mp him)
  have hsave := saveLoop_nodup n (sortImagesDesc (images.map Prod.snd)) [] (by simp) hdec' hp'
  refine ⟨?_, ?_, hperm, List.sorted_insertionSort keyGe _⟩
  · unfold saveFinalImages
    rw [hsave]
    simp
  · unfold saveFinalImages
    rw [hsave]
    simp [List.length_take, sortImagesDesc_length]

/-- Six distinct final units with decodable payloads for the C5 witness. -/
def wStore6 : List (Str × ImageProgress) :=
  [(['a'], wDecImg 'a' 100001), (['b'], wDecImg 'b' 100002), (['c'], wDecImg 'c' 100003),
   (['d'], wDecImg 'd' 100004), (['e'], wDecImg 'e' 100005), (['f'], wDecImg 'f' 100006)]

theorem c5_final_selection_witness :
    (saveFinalImages wStore6 4).1
        = ((sortImagesDesc (wStore6.map Prod.snd)).take 4).map localUrl
  ∧ (saveFinalImages wStore6 4).1.length = 4 := by
  have h := c5_final_selection wStore6 4 (by decide) (by decide)
  exact ⟨h.1, by rw [h.2.1]; decide⟩

/-! ## C6 -/

/-- C6: in an orchestrated image call without a pinned credential: (i) the
attempt on which the blocked counter reaches 3 terminates the call at once
with the terminal blocked failure, regardless of remaining attempts;
(ii) below the cap, a blocked outcome marks the credential failed and the
loop continues with the next attempt; (iii) hence three blocked outcomes
from the start, with `max_retries` not yet exhausted, produce the terminal
blocked failure after exactly 3 attempts, each credential marked failed. -/
theorem c6_blocked_cap :
    (∀ (pool : Nat → Str) (outcomes : Nat → AttemptOutcome) (fuel idx : Nat)
        (lastError : Option OrchResult) (creds : List Str) (marks : List (Str × Str))
        (r : AttemptResult),
      pool idx ≠ [] → outcomes idx = .res r → r.success = false →
      r.errorCode = "blocked".toList →
      generateGo [] pool outcomes (fuel + 1) idx 2 lastError creds marks =
        ⟨.blockedCap, idx + 1, creds ++ [pool idx], marks ++ [(pool idx, blockedMarkReason)]⟩)
  ∧ (∀ (pool : Nat → Str) (outcomes : Nat → AttemptOutcome) (fuel idx b : Nat)
        (lastError : Option OrchResult) (creds : List Str) (marks : List (Str × Str))
        (r : AttemptResult),
      pool idx ≠ [] → outcomes idx = .res r → r.success = false →
      r.errorCode = "blocked".toList → b + 1 < 3 →
      generateGo [] pool outcomes (fuel + 1) idx b lastError creds marks =
        generateGo [] pool outcomes fuel (idx + 1) (b + 1) lastError
          (creds ++ [pool idx]) (marks ++ [(pool idx, blockedMarkReason)]))
  ∧ (∀ (pool : Nat → Str) (outcomes : Nat → AttemptOutcome) (maxRetries : Nat)
        (r1 r2 r3 : AttemptResult),
      3 < maxRetries → pool 0 ≠ [] → pool 1 ≠ [] → pool 2 ≠ [] →
      outcomes 0 = .res r1 → outcomes 1 = .res r2 → outcomes 2 = .res r3 →
      r1.success = false → r1.errorCode = "blocked".toList →
      r2.success = false → r2.errorCode = "blocked".toList →
      r3.success = false → r3.errorCode = "blocked".toList →
      generateRun [] pool outcomes maxRetries =
        ⟨.blockedCap, 3, [pool 0, pool 1, pool 2],
         [(pool 0, blockedMarkReason), (pool 1, blockedMarkReason),
          (pool 2, blockedMarkReason)]⟩
      ∧ (generateRun [] pool outcomes maxRetries).result.successFlag = false
      ∧ (generateRun [] pool outcomes maxRetries).result.errorCodeOf = "blocked".toList) := by
  have hcap : ∀ (pool : Nat → Str) (outcomes : Nat → AttemptOutcome) (fuel idx : Nat)
      (lastError : Option OrchResult) (creds : List Str) (marks : List (Str × Str))
      (r : AttemptResult),
      pool idx ≠ [] → outcomes idx = .res r → r.success = false →
      r.errorCode = "blocked".toList →
      generateGo [] pool outcomes (fuel + 1) idx 2 lastError creds marks =
        ⟨.blockedCap, idx + 1, creds ++ [pool idx],
         marks ++ [(pool idx, blockedMarkReason)]⟩ := by
    intro pool outcomes fuel idx lastError creds marks r hpool hout hsucc hcode
    simp [generateGo, hpool, hout, hsucc, hcode]
  have hstep : ∀ (pool : Nat → Str) (outcomes : Nat → AttemptOutcome) (fuel idx b : Nat)
      (lastError : Option OrchResult) (creds : List Str) (marks : List (Str × Str))
      (r : AttemptResult),
      pool idx ≠ [] → outcomes idx = .res r → r.success = false →
      r.errorCode = "blocked".toList → b + 1 < 3 →
      generateGo [] pool outcomes (fuel + 1) idx b lastError creds marks =
        generateGo [] pool outcomes fuel (idx + 1) (b + 1) lastError
          (creds ++ [pool idx]) (marks ++ [(pool idx, blockedMarkReason)]) := by
    intro pool outcomes fuel idx b lastError creds marks r hpool hout hsucc hcode hb
    have h3 : ¬ 3 ≤ b + 1 := by omega
    simp [generateGo, hpool, hout, hsucc, hcode, h3]
  refine ⟨hcap, hstep, ?_⟩
  intro pool outcomes maxRetries r1 r2 r3 hmr hp0 hp1 hp2 ho0 ho1 ho2 hs1 hc1 hs2 hc2 hs3 hc3
  obtain ⟨k, rfl⟩ : ∃ k, maxRetries = (k + 3) + 1 := ⟨maxRetries - 4, by omega⟩
  have hrun : generateRun [] pool outcomes ((k + 3) + 1) =
      ⟨.blockedCap, 3, [pool 0, pool 1, pool 2],
       [(pool 0, blockedMarkReason), (pool 1, blockedMarkReason),
        (pool 2, blockedMarkReason)]⟩ := by
    unfold generateRun
    rw [hstep pool outcomes (k + 3) 0 0 none [] [] r1 hp0 ho0 hs1 hc1 (by omega)]
    have e1 : k + 3 = (k + 2) + 1 := by omega
    rw [e1, hstep pool outcomes (k + 2) 1 1 none ([] ++ [pool 0])
      ([] ++ [(pool 0, blockedMarkReason)]) r2 hp1 ho1 hs2 hc2 (by omega)]
    have e2 : k + 2 = (k + 1) + 1 := by omega
    rw [e2, hcap pool outcomes (k + 1) 2 none (([] ++ [pool 0]) ++ [pool 1])
      (([] ++ [(pool 0, blockedMarkReason)]) ++ [(pool 1, blockedMarkReason)]) r3 hp2 ho2 hs3 hc3]
    simp
  exact ⟨hrun, by rw [hrun]; rfl, by rw [hrun]; rfl⟩

/-- Data for the C6 witness. -/
def wBlockedRes (i : Nat) : AttemptResult := ⟨false, "blocked".toList, "b".toList, i⟩

theorem c6_blocked_cap_witness :
    generateRun [] (fun _ => "p".toList) (fun i => .res (wBlockedRes i)) 5 =
      ⟨.blockedCap, 3, ["p".toList, "p".toList, "p".toList],
       [("p".toList, blockedMarkReason), ("p".toList, blockedMarkReason),
        ("p".toList, blockedMarkReason)]⟩ :=
  (c6_blocked_cap.2.2 (fun _ => "p".toList) (fun i => .res (wBlockedRes i)) 5
    (wBlockedRes 0) (wBlockedRes 1) (wBlockedRes 2)
    (by decide) (by decide) (by decide) (by decide)
    rfl rfl rfl rfl rfl rfl rfl rfl rfl).1

/-! ## C7 -/

/-- C7: with a pinned credential the orchestrator never rotates: exactly
one attempt runs, using the pinned credential only (both for the image
flow `generate` and the video flow `generate_video`); and when that single
attempt fails with `rate_limit_exceeded`, the structured failure is
returned verbatim after the credential is marked failed. -/
theorem c7_pinned_no_rotation :
    (∀ (pinned : Str) (pool : Nat → Str) (outcomes : Nat → AttemptOutcome) (maxRetries : Nat),
      pinned ≠ [] → 0 < maxRetries →
      (generateRun pinned pool outcomes maxRetries).attemptsUsed = 1 ∧
      (generateRun pinned pool outcomes maxRetries).credsUsed = [pinned])
  ∧ (∀ (pinned : Str) (pool : Nat → Str) (outcomes : Nat → AttemptOutcome) (maxRetries : Nat)
        (r : AttemptResult),
      pinned ≠ [] → 0 < maxRetries → outcomes 0 = .res r → r.success = false →
      r.errorCode = "rate_limit_exceeded".toList →
      (generateRun pinned pool outcomes maxRetries).result = .fromAttempt r ∧
      (generateRun pinned pool outcomes maxRetries).marks = [(pinned, r.errMsg)])
  ∧ (∀ (pinned : Str) (pool : Nat → Str) (outcomes : Nat → AttemptOutcome) (maxRetries : Nat),
      pinned ≠ [] → 0 < maxRetries →
      (generateVideoRun pinned pool outcomes maxRetries).attemptsUsed = 1 ∧
      (generateVideoRun pinned pool outcomes maxRetries).credsUsed = [pinned])
  ∧ (∀ (pinned : Str) (pool : Nat → Str) (outcomes : Nat → AttemptOutcome) (maxRetries : Nat)
        (r : AttemptResult),
      pinned ≠ [] → 0 < maxRetries → outcomes 0 = .res r → r.success = false →
      r.errorCode = "rate_limit_exceeded".toList →
      (generateVideoRun pinned pool outcomes maxRetries).result = .fromAttempt r ∧
      (generateVideoRun pinned pool outcomes maxRetries).marks = [(pinned, r.errMsg)]) := by
  refine ⟨?_, ?_, ?_, ?_⟩
  · intro pinned pool outcomes maxRetries hpin hmr
    obtain ⟨f, rfl⟩ : ∃ f, maxRetries = f + 1 := ⟨maxRetries - 1, by omega⟩
    unfold generateRun
    cases ho : outcomes 0 with
    | exn m => simp [generateGo, hpin, ho]
    | res r =>
      by_cases hrs : r.success = true
      · simp [generateGo, hpin, ho, hrs]
      · simp only [generateRun, generateGo, hpin, ho, hrs]
        simp [hpin]
        split_ifs <;> simp
  · intro pinned pool outcomes maxRetries r hpin hmr ho hrs hrc
    obtain ⟨f, rfl⟩ : ∃ f, maxRetries = f + 1 := ⟨maxRetries - 1, by omega⟩
    unfold generateRun
    have hbc : ¬ r.errorCode = "blocked".toList := by
      rw [hrc]
      decide
    simp [generateGo, hpin, ho, hrs, hrc, hbc]
  · intro pinned pool outcomes maxRetries hpin hmr
    obtain ⟨f, rfl⟩ : ∃ f, maxRetries = f + 1 := ⟨maxRetries - 1, by omega⟩
    unfold generateVideoRun
    cases ho : outcomes 0 with
    | exn m => simp [generateVideoGo, hpin, ho]
    | res r =>
      by_cases hrs : r.success = true
      · simp [generateVideoGo, hpin, ho, hrs]
      · simp only [generateVideoGo, hpin, ho, hrs]
        simp [hpin]
        split_ifs <;> simp
  · intro pinned pool outcomes maxRetries r hpin hmr ho hrs hrc
    obtain ⟨f, rfl⟩ : ∃ f, maxRetries = f + 1 := ⟨maxRetries - 1, by omega⟩
    unfold generateVideoRun
    simp [generateVideoGo, hpin, ho, hrs, hrc]

/-- The rate-limited attempt result for the C7 witness. -/
def wRLRes : AttemptResult := ⟨false, "rate_limit_exceeded".toList, "rl".toList, 0⟩

theorem c7_pinned_no_rotation_witness :
    (generateRun "s".toList (fun _ => "p".toList) (fun _ => .res wRLRes) 5).attemptsUsed = 1
  ∧ (generateRun "s".toList (fun _ => "p".toList) (fun _ => .res wRLRes) 5).credsUsed
      = ["s".toList]
  ∧ (generateRun "s".toList (fun _ => "p".toList) (fun _ => .res wRLRes) 5).result
      = .fromAttempt wRLRes
  ∧ (generateRun "s".toList (fun _ => "p".toList) (fun _ => .res wRLRes) 5).marks
      = [("s".toList, "rl".toList)]
  ∧ (generateVideoRun "s".toList (fun _ => "p".toList) (fun _ => .res wRLRes) 3).attemptsUsed
      = 1 := by
  refine ⟨(c7_pinned_no_rotation.1 "s".toList (fun _ => "p".toList)
      (fun _ => .res wRLRes) 5 (by decide) (by decide)).1,
    (c7_pinned_no_rotation.1 "s".toList (fun _ => "p".toList)
      (fun _ => .res wRLRes) 5 (by decide) (by decide)).2,
    (c7_pinned_no_rotation.2.1 "s".toList (fun _ => "p".toList)
      (fun _ => .res wRLRes) 5 wRLRes (by decide) (by decide) rfl rfl rfl).1,
    (c7_pinned_no_rotation.2.1 "s".toList (fun _ => "p".toList)
      (fun _ => .res wRLRes) 5 wRLRes (by decide) (by decide) rfl rfl rfl).2,
    (c7_pinned_no_rotation.2.2.1 "s".toList (fun _ => "p".toList)
      (fun _ => .res wRLRes) 3 (by decide) (by decide)).1⟩

/-! ## C8 -/

theorem scanVideoLines_no_final : ∀ (lines : List ChatLine) (acc : List Str),
    (∀ (b : Bool) (v : VideoResp), ChatLine.record b (some v) ∈ lines →
      ¬(100 ≤ v.progress ∧ v.videoUrl ≠ [])) →
    (scanVideoLines lines acc).1 = none
  | [], acc, _ => by simp [scanVideoLines]
  | .malformed :: rest, acc, h => by
    rw [scanVideoLines]
    exact scanVideoLines_no_final rest acc (fun b v hv => h b v (List.mem_cons_of_mem _ hv))
  | .record tok none :: rest, acc, h => by
    rw [scanVideoLines]
    exact scanVideoLines_no_final rest acc (fun b v hv => h b v (List.mem_cons_of_mem _ hv))
  | .record tok (some v) :: rest, acc, h => by
    rw [scanVideoLines, if_neg (h tok v (List.mem_cons_self _ _))]
    exact scanVideoLines_no_final rest _ (fun b v hv => h b v (List.mem_cons_of_mem _ hv))

/-- C8: video-attempt failure classification over the aiohttp flow: a
non-success post-creation status yields `video_post_failed`; a 429 on the
chat request yields `rate_limit_exceeded`; a 401 yields `unauthorized`;
and a stream that completes without any record reaching progress 100 with
a nonempty video URL yields `video_not_supported`, carrying the collected
preview thumbnails capped to at most 3. -/
theorem c8_video_classification :
    (∀ (postStatus : Nat) (postIdField : Str) (chatStatus : Nat) (lines : List ChatLine),
      postStatus ≠ 200 →
      doGenerateVideoHttp postStatus postIdField chatStatus lines = .postFailed)
  ∧ (∀ (postIdField : Str) (lines : List ChatLine), postIdField ≠ [] →
      doGenerateVideoHttp 200 postIdField 429 lines = .rateLimited)
  ∧ (∀ (postIdField : Str) (lines : List ChatLine), postIdField ≠ [] →
      doGenerateVideoHttp 200 postIdField 401 lines = .unauthorizedFailure)
  ∧ (∀ (postIdField : Str) (lines : List ChatLine), postIdField ≠ [] →
      (∀ (b : Bool) (v : VideoResp), ChatLine.record b (some v) ∈ lines →
        ¬(100 ≤ v.progress ∧ v.videoUrl ≠ [])) →
      doGenerateVideoHttp 200 postIdField 200 lines =
        .notSupported ((scanVideoLines lines []).2.take 3)
      ∧ ((scanVideoLines lines []).2.take 3).length ≤ 3) := by
  refine ⟨?_, ?_, ?_, ?_⟩
  · intro postStatus postIdField chatStatus lines h
    simp [doGenerateVideoHttp, createVideoPost, h]
  · intro postIdField lines hpid
    simp [doGenerateVideoHttp, createVideoPost, hpid]
  · intro postIdField lines hpid
    simp [doGenerateVideoHttp, createVideoPost, hpid]
  · intro postIdField lines hpid hq
    have hnone := scanVideoLines_no_final lines [] hq
    constructor
    · simp only [doGenerateVideoHttp, createVideoPost]
      norm_num
      rw [if_neg hpid]
      rcases hsc : scanVideoLines lines [] with ⟨o, p⟩
      rw [hsc] at hnone
      simp at hnone
      subst hnone
      rfl
    · have : ((scanVideoLines lines []).2.take 3).length ≤ 3 := by
        rw [List.length_take]
        omega
      exact this

/-- Lines for the C8 witness: one low-progress record and one malformed
line; no qualifying completion record. -/
def wChatLines : List ChatLine :=
  [ChatLine.record true (some ⟨50, [], "t1".toList⟩), ChatLine.malformed]

theorem c8_video_classification_witness :
    doGenerateVideoHttp 404 "p".toList 200 wChatLines = .postFailed
  ∧ doGenerateVideoHttp 200 "p".toList 429 wChatLines = .rateLimited
  ∧ doGenerateVideoHttp 200 "p".toList 401 wChatLines = .unauthorizedFailure
  ∧ doGenerateVideoHttp 200 "p".toList 200 wChatLines =
      .notSupported ((scanVideoLines wChatLines []).2.take 3)
  ∧ ((scanVideoLines wChatLines []).2.take 3).length ≤ 3 := by
  have hq : ∀ (b : Bool) (v : VideoResp), ChatLine.record b (some v) ∈ wChatLines →
      ¬(100 ≤ v.progress ∧ v.videoUrl ≠ []) := by
    intro b v hv
    simp only [wChatLines, List.mem_cons, List.not_mem_nil, or_false] at hv
    rcases hv with h | h
    · cases h
      decide
    · cases h
  have h4 := c8_video_classification.2.2.2 "p".toList wChatLines (by decide) hq
  exact ⟨c8_video_classification.1 404 "p".toList 200 wChatLines (by decide),
    c8_video_classification.2.1 "p".toList wChatLines (by decide),
    c8_video_classification.2.2.1 "p".toList wChatLines (by decide),
    h4.1, h4.2⟩

/-! ## C9 -/

theorem consumeStream_append (ps : List EmitItem) (r : GenResult) (rest : List StreamItem) :
    consumeStream (ps.map StreamItem.progressItem ++ StreamItem.resultItem r :: rest)
      = ps.map StreamItem.progressItem ++ [StreamItem.resultItem r] := by
  induction ps with
  | nil => simp [consumeStream]
  | cons p pt ih => simp [consumeStream, ih]

theorem filter_result_map_progress (l : List EmitItem) :
    (l.map StreamItem.progressItem).filter StreamItem.isResultItem = [] := by
  induction l with
  | nil => rfl
  | cons a t ih => simp [StreamItem.isResultItem, ih]

/-- C9: for every complete consumption of the adapter's yielded sequence:
the consumer yields the whole queue; exactly one yielded item is the
terminal result record; it is the last item yielded; every earlier item is
a progress record; and the consumer stops at the terminal record, so no
item after it is ever yielded. -/
theorem c9_stream_terminal (n : Nat) (s : LoopState) (evs : List WsEvent) :
    consumeStream (adapterQueue n s evs) = adapterQueue n s evs
  ∧ ((adapterQueue n s evs).filter StreamItem.isResultItem).length = 1
  ∧ (adapterQueue n s evs).getLast? = some (.resultItem (runLoopFrom n s evs))
  ∧ (∀ x ∈ (adapterQueue n s evs).dropLast, x.isResultItem = false)
  ∧ (∀ (ps : List EmitItem) (r : GenResult) (rest : List StreamItem),
      consumeStream (ps.map StreamItem.progressItem ++ StreamItem.resultItem r :: rest)
        = ps.map StreamItem.progressItem ++ [StreamItem.resultItem r]) := by
  refine ⟨?_, ?_, ?_, ?_, consumeStream_append⟩
  · unfold adapterQueue
    exact consumeStream_append _ _ []
  · unfold adapterQueue
    simp [List.filter_append, filter_result_map_progress, StreamItem.isResultItem]
  · unfold adapterQueue runLoopFrom
    exact List.getLast?_concat _
  · unfold adapterQueue
    rw [List.dropLast_concat]
    intro x hx
    obtain ⟨p, _, rfl⟩ := List.mem_map.mp hx
    rfl

end GrokClient
